import Mathlib

/-!
# podinfo (`main.go`): a shallow embedding

The service is one Go file: a logging middleware that resolves a correlation
ID, three handlers (`healthz`, `metrics`, `root`) and `main`, which resolves
the port, builds a `ServeMux` and serves it wrapped in the middleware.

Go strings are byte sequences, so they are modelled as lists of bytes: a
request path may hold bytes that are not UTF-8 (`GET /%ff`).  Side effects are
explicit.  A handler is a function from the response writer, the request
(handlers receive `*http.Request`, so they may change it) and the process
state (`World`: the standard logger's output, the `requestsTotal` counter
vector, the random source read by `uuid.New`, the clock) to an `Outcome`: the
three of them when `ServeHTTP` returned, or when it panicked.
-/

namespace Podinfo

/-! ## Go strings and UTF-8 -/

/-- A Go string: a sequence of bytes (each below 256), not necessarily the
UTF-8 encoding of a text. -/
abbrev GoString := List Nat

/-- The UTF-8 encoding of a code point. -/
def utf8EncodeRune (n : Nat) : List Nat :=
  if n < 0x80 then [n]
  else if n < 0x800 then [0xC0 + n / 64, 0x80 + n % 64]
  else if n < 0x10000 then [0xE0 + n / 4096, 0x80 + n / 64 % 64, 0x80 + n % 64]
  else [0xF0 + n / 262144, 0x80 + n / 4096 % 64, 0x80 + n / 64 % 64, 0x80 + n % 64]

/-- The bytes of a string literal of the source. -/
def lit (s : String) : GoString :=
  s.data.flatMap fun c => utf8EncodeRune c.toNat

/-- A UTF-8 continuation byte. -/
def isCont (b : Nat) : Bool :=
  0x80 ≤ b && b ≤ 0xBF

/-- The code point encoded at the head of a byte sequence and the number of
bytes of its encoding, as `utf8.DecodeRuneInString` accepts it: shortest form
only, no surrogate, nothing above U+10FFFF.  No value when the head is not the
start of a valid encoding. -/
def decodeRune : List Nat → Option (Nat × Nat)
  | [] => none
  | b0 :: rest =>
    if b0 < 0x80 then some (b0, 1)
    else if 0xC2 ≤ b0 ∧ b0 ≤ 0xDF then
      match rest with
      | b1 :: _ => if isCont b1 then some ((b0 - 0xC0) * 64 + (b1 - 0x80), 2) else none
      | [] => none
    else if 0xE0 ≤ b0 ∧ b0 ≤ 0xEF then
      match rest with
      | b1 :: b2 :: _ =>
        if (if b0 = 0xE0 then 0xA0 else 0x80) ≤ b1 ∧ b1 ≤ (if b0 = 0xED then 0x9F else 0xBF) ∧
            isCont b2 then
          some (((b0 - 0xE0) * 64 + (b1 - 0x80)) * 64 + (b2 - 0x80), 3)
        else none
      | _ => none
    else if 0xF0 ≤ b0 ∧ b0 ≤ 0xF4 then
      match rest with
      | b1 :: b2 :: b3 :: _ =>
        if (if b0 = 0xF0 then 0x90 else 0x80) ≤ b1 ∧ b1 ≤ (if b0 = 0xF4 then 0x8F else 0xBF) ∧
            isCont b2 ∧ isCont b3 then
          some ((((b0 - 0xF0) * 64 + (b1 - 0x80)) * 64 + (b2 - 0x80)) * 64 + (b3 - 0x80), 4)
        else none
      | _ => none
    else none

/-- The code points of a byte sequence that is valid UTF-8; the first argument
bounds the number of code points read. -/
def utf8DecodeFrom : Nat → List Nat → Option (List Nat)
  | _, [] => some []
  | 0, _ :: _ => none
  | n + 1, b :: bs =>
    match decodeRune (b :: bs) with
    | none => none
    | some (cp, size) =>
      match utf8DecodeFrom n ((b :: bs).drop size) with
      | none => none
      | some cps => some (cp :: cps)

/-- The code points of a Go string, when it is valid UTF-8. -/
def utf8Decode (s : GoString) : Option (List Nat) :=
  utf8DecodeFrom s.length s

/-- Embedding of `utf8.ValidString`. -/
def utf8ValidString (s : GoString) : Bool :=
  (utf8Decode s).isSome

/-! ## net/textproto and net/http: header maps -/

/-- An ASCII letter or digit. -/
def isAlnumByte (b : Nat) : Bool :=
  (48 ≤ b && b ≤ 57) || (65 ≤ b && b ≤ 90) || (97 ≤ b && b ≤ 122)

/-- Bytes allowed in a header field name (`validHeaderFieldByte`): the token
characters of RFC 7230. -/
def validHeaderFieldByte (b : Nat) : Bool :=
  isAlnumByte b || (lit "!#$%&'*+-.^_`|~").contains b

/-- Inner loop of `canonicalMIMEHeaderKey`: the first letter and every letter
after a hyphen is upper-cased, every other letter lower-cased. -/
def canonicalBytes : Bool → List Nat → List Nat
  | _, [] => []
  | upper, c :: cs =>
    (if upper ∧ 97 ≤ c ∧ c ≤ 122 then c - 32
     else if ¬ upper ∧ 65 ≤ c ∧ c ≤ 90 then c + 32
     else c) :: canonicalBytes (c == 45) cs

/-- Embedding of `textproto.CanonicalMIMEHeaderKey`: a key with a byte that is
not allowed in a field name is returned unchanged. -/
def CanonicalMIMEHeaderKey (s : GoString) : GoString :=
  if s.all validHeaderFieldByte then canonicalBytes true s else s

/-- Embedding of `http.Header` (`map[string][]string`): canonical key to its
values; a key that is not in the map has no value. -/
abbrev Header := GoString → List GoString

/-- An empty header map. -/
def Header.empty : Header := fun _ => []

/-- Embedding of `Header.Get`: the first value of the canonicalised key, the
empty string when there is none. -/
def Header.Get (h : Header) (key : GoString) : GoString :=
  match h (CanonicalMIMEHeaderKey key) with
  | [] => []
  | v :: _ => v

/-- Embedding of `Header.Set`: the canonicalised key gets the single value
`value`. -/
def Header.Set (h : Header) (key value : GoString) : Header :=
  fun k => if k = CanonicalMIMEHeaderKey key then [value] else h k

/-! ## net/http: requests and response writers -/

/-- The fields of `url.URL` the program and the multiplexer read. -/
structure URL where
  Path : GoString
  RawQuery : GoString

/-- The fields of `http.Request` the program, the multiplexer and the server
read, for a request the server has read from a connection. -/
structure Request where
  Method : GoString
  URL : URL
  ProtoMajor : Nat
  ProtoMinor : Nat
  RequestURI : GoString
  RemoteAddr : GoString
  Header : Header
  Body : GoString

/-- Embedding of `Request.ProtoAtLeast`. -/
def Request.ProtoAtLeast (r : Request) (major minor : Nat) : Bool :=
  r.ProtoMajor > major || (r.ProtoMajor == major && r.ProtoMinor ≥ minor)

/-- State of the `http.ResponseWriter` the server hands to a handler: the
header map of the handler, whether the status line has been written, with
which code and with which headers, and the bytes the writer accepted from
`Write` calls.  What the server sends for them is decided by `respond`. -/
structure ResponseWriter where
  header : Header
  wroteHeader : Bool
  status : Nat
  sent : Header
  written : GoString

/-- The writer the server creates for a request. -/
def ResponseWriter.new : ResponseWriter :=
  { header := Header.empty, wroteHeader := false, status := 0, sent := Header.empty,
    written := [] }

/-- Embedding of `w.WriteHeader(code)`: the first call fixes the status and the
headers that go with it, later calls are ignored.  The program calls it (through
the multiplexer) with 301, 400 and 404 only. -/
def ResponseWriter.WriteHeader (w : ResponseWriter) (code : Nat) : ResponseWriter :=
  if w.wroteHeader then w else { w with wroteHeader := true, status := code, sent := w.header }

/-- Embedding of `bodyAllowedForStatus`: no body goes with a 1xx, 204 or 304
status. -/
def bodyAllowedForStatus (status : Nat) : Bool :=
  if 100 ≤ status ∧ status ≤ 199 then false
  else if status = 204 then false
  else if status = 304 then false
  else true

/-- Embedding of `w.Write(b)`: writes the status line with `StatusOK` if no
status was written yet; an empty write ends there; the bytes are refused when
the status allows no body and accepted otherwise.  A `Content-Length` declared
by the handler, beyond which the real writer refuses bytes, is not modelled:
no handler of this program declares one. -/
def ResponseWriter.Write (w : ResponseWriter) (b : GoString) : ResponseWriter :=
  let w1 := if w.wroteHeader then w else w.WriteHeader 200
  if b = [] then w1
  else if bodyAllowedForStatus w1.status then { w1 with written := w1.written ++ b }
  else w1

/-- Embedding of `w.Header().Set(key, value)`. -/
def ResponseWriter.SetHeader (w : ResponseWriter) (key value : GoString) : ResponseWriter :=
  { w with header := w.header.Set key value }

/-! ## Process state: logger, counter vector, random source, clock -/

/-- The value a panic carries, as far as the program and the server tell them
apart: the error of the Prometheus client for a label value that is not valid
UTF-8, `http.ErrAbortHandler`, or any other value (by its printed form). -/
inductive PanicValue where
  | labelNotUTF8 (value : GoString)
  | abortHandler
  | other (printed : GoString)
  deriving DecidableEq

/-- An operand of a `log.Printf` call: a string (`%s`), a `time.Duration` in
nanoseconds (`%v`), the value of a recovered panic (`%v`) or the stack trace
the server prints with it. -/
inductive LogArg where
  | str (s : GoString)
  | duration (nanos : Int)
  | panicValue (v : PanicValue)
  | stack
  deriving DecidableEq

/-- One `log.Printf` call: its format and its operands, in order. -/
structure LogEntry where
  format : GoString
  args : List LogArg
  deriving DecidableEq

/-- Label values of `requestsTotal`, in the order of its declaration:
`path`, `method`, `status`. -/
abbrev Labels := GoString × GoString × GoString

/-- What the handlers share: the calls made to the standard logger, the value
of every child of the counter vector `requestsTotal` (the number of `Inc`
calls on it, zero for a child never used), the bytes the random source will
deliver with the number already read, and the clock in nanoseconds. -/
structure World where
  logged : List LogEntry
  requestsTotal : Labels → Nat
  rand : Nat → Nat
  randRead : Nat
  clock : Int

/-- Embedding of `log.Printf(format, args...)`. -/
def World.Printf (s : World) (format : GoString) (args : List LogArg) : World :=
  { s with logged := s.logged ++ [⟨format, args⟩] }

/-- The check of `validateLabelValues` in the Prometheus client: the first
label value that is not valid UTF-8. -/
def invalidLabelValue (vals : List GoString) : Option GoString :=
  vals.find? fun v => ¬ utf8ValidString v

/-- Embedding of `requestsTotal.WithLabelValues(path, method, status).Inc()`:
`WithLabelValues` panics when a label value is not valid UTF-8; otherwise the
child of these label values is incremented by one. -/
def World.Inc (s : World) (l : Labels) : Except PanicValue World :=
  match invalidLabelValue [l.1, l.2.1, l.2.2] with
  | some v => Except.error (PanicValue.labelNotUTF8 v)
  | none =>
    Except.ok { s with
      requestsTotal := fun k => if k = l then s.requestsTotal k + 1 else s.requestsTotal k }

/-- What a handler can reach: the response writer, the request and the process
state. -/
structure Served where
  w : ResponseWriter
  r : Request
  world : World

/-- How a call of `ServeHTTP` ends: it returns, or it panics with a value;
either way with the response writer, the request and the process state as
they are at that moment. -/
inductive Outcome where
  | returned (out : Served)
  | panicked (v : PanicValue) (out : Served)

/-- The response writer, the request and the process state at the end of the
call. -/
def Outcome.state : Outcome → Served
  | Outcome.returned out => out
  | Outcome.panicked _ out => out

/-- Embedding of `http.Handler`: `ServeHTTP(w, r)` as a function of the state
it can reach. -/
abbrev Handler := ResponseWriter → Request → World → Outcome

/-! ## github.com/google/uuid -/

/-- Lower-case hexadecimal digit (as a byte) of a value below 16. -/
def hexDigit (n : Nat) : Nat :=
  if n < 10 then 48 + n else 87 + n

/-- The two hexadecimal digits of a byte. -/
def hexByte (b : Nat) : List Nat :=
  [hexDigit (b / 16 % 16), hexDigit (b % 16)]

/-- Modelled from the spec: package `github.com/google/uuid` is not part of the
source tree; the spec describes the generated ID as a "fresh randomized unique
identifier" in the "standard 128-bit random identifier format".  `uuid.New()`
reads 16 bytes from the random source and stamps version 4 and the RFC 4122
variant on bytes 6 and 8. -/
def uuidNew (s : World) : (Nat → Nat) × World :=
  let b : Nat → Nat := fun i => s.rand (s.randRead + i) % 256
  (fun i => if i = 6 then b 6 % 16 + 64 else if i = 8 then b 8 % 64 + 128 else b i,
   { s with randRead := s.randRead + 16 })

/-- Modelled from the spec: `UUID.String()` of the absent package
`github.com/google/uuid`, the "standard 128-bit random identifier format":
32 lower-case hexadecimal digits in groups of 8, 4, 4, 4 and 12 joined by
hyphens. -/
def uuidString (u : Nat → Nat) : GoString :=
  hexByte (u 0) ++ hexByte (u 1) ++ hexByte (u 2) ++ hexByte (u 3) ++ [45] ++
  hexByte (u 4) ++ hexByte (u 5) ++ [45] ++
  hexByte (u 6) ++ hexByte (u 7) ++ [45] ++
  hexByte (u 8) ++ hexByte (u 9) ++ [45] ++
  hexByte (u 10) ++ hexByte (u 11) ++ hexByte (u 12) ++ hexByte (u 13) ++
  hexByte (u 14) ++ hexByte (u 15)

/-- A hexadecimal digit, either case. -/
def isHexByte (c : Nat) : Bool :=
  (48 ≤ c && c ≤ 57) || (97 ≤ c && c ≤ 102) || (65 ≤ c && c ≤ 70)

/-- Scan of the canonical text form from index `i`: hyphens at 8, 13, 18 and
23, hexadecimal digits elsewhere, 36 bytes in all. -/
def validUUIDBytes : Nat → List Nat → Bool
  | i, [] => i == 36
  | i, c :: cs =>
    (if i = 8 ∨ i = 13 ∨ i = 18 ∨ i = 23 then c == 45 else isHexByte c) &&
      validUUIDBytes (i + 1) cs

/-- A syntactically valid UUID string (the 36-byte form `uuid.Parse`
accepts). -/
def validUUIDString (s : GoString) : Bool :=
  validUUIDBytes 0 s

/-! ## encoding/json -/

/-- The `Health` struct of main.go; its one field is encoded under the key
`status`. -/
structure Health where
  Status : GoString

/-- How `encoding/json` writes one ASCII byte of a string, HTML escaping on
(the default of an `Encoder`). -/
def jsonEscapeByte (b : Nat) : List Nat :=
  if b = 92 ∨ b = 34 then [92, b]
  else if b = 8 then lit "\\b"
  else if b = 12 then lit "\\f"
  else if b = 10 then lit "\\n"
  else if b = 13 then lit "\\r"
  else if b = 9 then lit "\\t"
  else if b < 32 ∨ b = 60 ∨ b = 62 ∨ b = 38 then
    lit "\\u00" ++ [hexDigit (b / 16 % 16), hexDigit (b % 16)]
  else [b]

/-- How `encoding/json` writes the bytes of a string: ASCII bytes by
`jsonEscapeByte`, a byte that starts no valid encoding as the replacement
character, U+2028 and U+2029 escaped, every other code point as it is.  The
first argument bounds the number of steps. -/
def jsonEscapeFrom : Nat → List Nat → List Nat
  | _, [] => []
  | 0, _ :: _ => []
  | n + 1, b :: bs =>
    if b < 0x80 then jsonEscapeByte b ++ jsonEscapeFrom n bs
    else
      match decodeRune (b :: bs) with
      | none => lit "\\ufffd" ++ jsonEscapeFrom n bs
      | some (cp, size) =>
        (if cp = 0x2028 then lit "\\u2028"
         else if cp = 0x2029 then lit "\\u2029"
         else (b :: bs).take size) ++ jsonEscapeFrom n ((b :: bs).drop size)

/-- A Go string as a JSON string literal. -/
def jsonString (s : GoString) : GoString :=
  [34] ++ jsonEscapeFrom s.length s ++ [34]

/-- Embedding of `json.Marshal` of a `Health` value: an object with the single
member `status`. -/
def Health.Marshal (h : Health) : GoString :=
  lit "\x7b\"status\":" ++ jsonString h.Status ++ lit "\x7d"

/-- Embedding of `json.NewEncoder(w).Encode(v)` for a `Health` value: the
encoding of `v` followed by a newline character, in one `Write`. -/
def EncoderEncode (w : ResponseWriter) (v : Health) : ResponseWriter :=
  w.Write (v.Marshal ++ lit "\n")

/-- A decoded JSON value. -/
inductive Json where
  | null
  | bool (b : Bool)
  | num (text : String)
  | str (s : String)
  | arr (elems : List Json)
  | obj (members : List (String × Json))

/-- Skips JSON white space. -/
def skipWS : List Char → List Char
  | [] => []
  | c :: cs => if c = ' ' ∨ c = '\n' ∨ c = '\t' ∨ c = '\r' then skipWS cs else c :: cs

/-- Value of a hexadecimal digit. -/
def hexVal (c : Char) : Option Nat :=
  if c.isDigit then some (c.toNat - 48)
  else if c.val ≥ 97 ∧ c.val ≤ 102 then some (c.toNat - 87)
  else if c.val ≥ 65 ∧ c.val ≤ 70 then some (c.toNat - 55)
  else none

/-- The rest of a JSON string after its opening quote: the decoded text and
what follows the closing quote. -/
def parseStringBody : List Char → List Char → Option (String × List Char)
  | _, [] => none
  | acc, '"' :: cs => some (String.mk acc.reverse, cs)
  | acc, '\\' :: 'u' :: a :: b :: c :: d :: cs =>
    match hexVal a, hexVal b, hexVal c, hexVal d with
    | some x, some y, some z, some t =>
      parseStringBody (Char.ofNat (((x * 16 + y) * 16 + z) * 16 + t) :: acc) cs
    | _, _, _, _ => none
  | acc, '\\' :: e :: cs =>
    if e = '"' ∨ e = '\\' ∨ e = '/' then parseStringBody (e :: acc) cs
    else if e = 'b' then parseStringBody ('\x08' :: acc) cs
    else if e = 'f' then parseStringBody ('\x0c' :: acc) cs
    else if e = 'n' then parseStringBody ('\n' :: acc) cs
    else if e = 'r' then parseStringBody ('\r' :: acc) cs
    else if e = 't' then parseStringBody ('\t' :: acc) cs
    else none
  | acc, c :: cs => if c.toNat < 32 ∨ c = '\\' then none else parseStringBody (c :: acc) cs

/-- The digits at the head of the input and the rest. -/
def takeDigits : List Char → List Char × List Char
  | [] => ([], [])
  | c :: cs => if c.isDigit then ((c :: (takeDigits cs).1), (takeDigits cs).2) else ([], c :: cs)

/-- A JSON number: optional minus, digits, optional fraction.  Exponents are
not read: a number written with one is not decoded. -/
def parseNumber (cs : List Char) : Option (String × List Char) :=
  let neg := cs.head? = some '-'
  let body := if neg then cs.tail else cs
  let ip := takeDigits body
  if ip.1 = [] then none
  else
    let sign := if neg then ['-'] else []
    match ip.2 with
    | '.' :: rest =>
      let fp := takeDigits rest
      if fp.1 = [] then none else some (String.mk (sign ++ ip.1 ++ ['.'] ++ fp.1), fp.2)
    | rest => some (String.mk (sign ++ ip.1), rest)

mutual
/-- One JSON value at the head of the input, white space before it skipped;
the first argument bounds the nesting and the number of members read. -/
def parseValue : Nat → List Char → Option (Json × List Char)
  | 0, _ => none
  | n + 1, cs =>
    match skipWS cs with
    | 'n' :: 'u' :: 'l' :: 'l' :: rest => some (Json.null, rest)
    | 't' :: 'r' :: 'u' :: 'e' :: rest => some (Json.bool true, rest)
    | 'f' :: 'a' :: 'l' :: 's' :: 'e' :: rest => some (Json.bool false, rest)
    | '"' :: rest =>
      match parseStringBody [] rest with
      | some (s, rest1) => some (Json.str s, rest1)
      | none => none
    | '[' :: rest =>
      match skipWS rest with
      | ']' :: rest1 => some (Json.arr [], rest1)
      | _ =>
        match parseElems n rest with
        | some (vs, rest1) => some (Json.arr vs, rest1)
        | none => none
    | '\x7b' :: rest =>
      match skipWS rest with
      | '\x7d' :: rest1 => some (Json.obj [], rest1)
      | _ =>
        match parseMembers n rest with
        | some (ms, rest1) => some (Json.obj ms, rest1)
        | none => none
    | other =>
      match parseNumber other with
      | some (t, rest) => some (Json.num t, rest)
      | none => none
/-- The elements of an array after its opening bracket, up to and including
the closing bracket. -/
def parseElems : Nat → List Char → Option (List Json × List Char)
  | 0, _ => none
  | n + 1, cs =>
    match parseValue n cs with
    | none => none
    | some (v, rest) =>
      match skipWS rest with
      | ',' :: rest1 =>
        match parseElems n rest1 with
        | some (vs, rest2) => some (v :: vs, rest2)
        | none => none
      | ']' :: rest1 => some ([v], rest1)
      | _ => none
/-- The members of an object after its opening brace, up to and including the
closing brace. -/
def parseMembers : Nat → List Char → Option (List (String × Json) × List Char)
  | 0, _ => none
  | n + 1, cs =>
    match skipWS cs with
    | '"' :: rest =>
      match parseStringBody [] rest with
      | none => none
      | some (k, rest1) =>
        match skipWS rest1 with
        | ':' :: rest2 =>
          match parseValue n rest2 with
          | none => none
          | some (v, rest3) =>
            match skipWS rest3 with
            | ',' :: rest4 =>
              match parseMembers n rest4 with
              | some (ms, rest5) => some ((k, v) :: ms, rest5)
              | none => none
            | '\x7d' :: rest4 => some ([(k, v)], rest4)
            | _ => none
        | _ => none
    | _ => none
end

/-- Decoding of a whole text as one JSON value: the bytes are UTF-8, white
space may surround the value, nothing else may follow it. -/
def decodeJSON (s : GoString) : Option Json :=
  match utf8Decode s with
  | none => none
  | some cps =>
    match parseValue (2 * cps.length + 2) (cps.map Char.ofNat) with
    | some (v, rest) => if skipWS rest = [] then some v else none
    | none => none

/-- The value of a member of a decoded object. -/
def Json.field (j : Json) (key : String) : Option Json :=
  match j with
  | Json.obj members => (members.find? fun m => m.1 = key).map Prod.snd
  | _ => none

/-! ## main.go: the logging middleware -/

/-- Lines 40 to 44 of `loggingMiddleware`: read `X-Request-ID`, generate a UUID
when it is empty, write the resolved ID back onto the request.  Returns the ID,
the request and the process state. -/
def resolveID (r : Request) (s : World) : GoString × Request × World :=
  let id := r.Header.Get (lit "X-Request-ID")
  let p : GoString × World :=
    if id = lit "" then (uuidString (uuidNew s).1, (uuidNew s).2) else (id, s)
  (p.1, { r with Header := r.Header.Set (lit "X-Request-ID") p.1 }, p.2)

/-- Lines 51 to 55 of `loggingMiddleware`, what follows `next.ServeHTTP(w, r)`.
When the handler panicked the panic passes through, nothing of these lines is
run.  When it returned, the status label is the constant `"200"` and path and
method are read through the request pointer, so as the handler left them; a
panic of `WithLabelValues` ends the call before the counter is incremented and
before the completion line is logged. -/
def complete (id : GoString) (start : Int) : Outcome → Outcome
  | Outcome.panicked v out => Outcome.panicked v out
  | Outcome.returned out =>
    let status := lit "200"
    let latency := out.world.clock - start
    match out.world.Inc (out.r.URL.Path, out.r.Method, status) with
    | Except.error v => Outcome.panicked v out
    | Except.ok s =>
      Outcome.returned ⟨out.w, out.r,
        s.Printf (lit "[%s] Completed %s %s in %v")
          [.str id, .str out.r.Method, .str out.r.URL.Path, .duration latency]⟩

/-- Embedding of `loggingMiddleware(next)`. -/
def loggingMiddleware (next : Handler) : Handler := fun w r s =>
  let start := s.clock
  let res := resolveID r s
  let id := res.1
  let r1 := res.2.1
  let s1 := res.2.2.Printf (lit "[%s] %s %s from %s")
    [.str id, .str r1.Method, .str r1.URL.Path, .str r1.RemoteAddr]
  complete id start (next w r1 s1)

/-! ## main.go: the handlers -/

/-- Embedding of `healthz`. -/
def healthz : Handler := fun w r s =>
  let id := r.Header.Get (lit "X-Request-ID")
  let s1 := s.Printf (lit "[%s] Health check") [.str id]
  let w1 := w.SetHeader (lit "Content-Type") (lit "application/json")
  Outcome.returned ⟨EncoderEncode w1 { Status := lit "healthy" }, r, s1⟩

/-- Embedding of `metrics`; `promhttpHandler` stands for `promhttp.Handler()`
of the Prometheus client library. -/
def metrics (promhttpHandler : Handler) : Handler := fun w r s =>
  let id := r.Header.Get (lit "X-Request-ID")
  let s1 := s.Printf (lit "[%s] Metrics request") [.str id]
  promhttpHandler w r s1

/-- Embedding of `root`: `fmt.Fprintf` with the verb `%s` writes the ID as it
is, in one `Write`. -/
def root : Handler := fun w r s =>
  let id := r.Header.Get (lit "X-Request-ID")
  Outcome.returned ⟨w.Write (lit "Podinfo from scratch! Req ID: " ++ id), r, s⟩

/-! ## path and net/http: the request multiplexer -/

/-- The segments of a path between its slashes (byte 47). -/
def splitSlash : List Nat → List (List Nat)
  | [] => [[]]
  | c :: cs =>
    if c = 47 then [] :: splitSlash cs
    else
      match splitSlash cs with
      | [] => [[c]]
      | seg :: segs => (c :: seg) :: segs

/-- Segment pass of `path.Clean` on a rooted path: empty and `.` segments are
dropped, `..` removes the segment kept last (and is dropped at the root).
`kept` holds the segments kept so far, last first. -/
def cleanSegs : List (List Nat) → List (List Nat) → List (List Nat)
  | kept, [] => kept.reverse
  | kept, seg :: rest =>
    if seg = [] ∨ seg = [46] then cleanSegs kept rest
    else if seg = [46, 46] then cleanSegs kept.tail rest
    else cleanSegs (seg :: kept) rest

/-- Embedding of `path.Clean` on a rooted path (the only paths `cleanPath`
passes to it): the shortest equivalent path, a slash before every kept segment,
`/` alone when none is kept. -/
def pathClean (p : GoString) : GoString :=
  match cleanSegs [] (splitSlash p) with
  | [] => [47]
  | segs => segs.flatMap fun seg => 47 :: seg

/-- Embedding of `cleanPath` of net/http: the canonical path of `p`, rooted,
without `.`, `..` or empty segments, a trailing slash kept. -/
def cleanPath (p : GoString) : GoString :=
  if p = [] then [47]
  else
    let q := if p.head? = some 47 then p else 47 :: p
    let np := pathClean q
    if q.getLast? = some 47 ∧ np ≠ [47] then np ++ [47] else np

/-- A registration of a `ServeMux`. -/
structure muxEntry where
  pattern : GoString
  h : Handler

/-- Embedding of `http.ServeMux` as the registrations made on it, in order.
Patterns here carry no host, so the host of a request plays no part in the
routing. -/
abbrev ServeMux := List muxEntry

/-- Embedding of `http.NewServeMux()`. -/
def NewServeMux : ServeMux := []

/-- Embedding of `mux.Handle(pattern, handler)` and of
`mux.HandleFunc(pattern, handler)`. -/
def ServeMux.Handle (mux : ServeMux) (pattern : GoString) (handler : Handler) : ServeMux :=
  mux ++ [⟨pattern, handler⟩]

/-- The entry with the longest pattern. -/
def longestEntry : List muxEntry → Option muxEntry
  | [] => none
  | e :: es =>
    match longestEntry es with
    | none => some e
    | some e1 => if e1.pattern.length > e.pattern.length then some e1 else some e

/-- Embedding of `mux.match(path)`: the entry whose pattern is the path;
failing that, the longest pattern ending in a slash that the path starts
with. -/
def ServeMux.matchPath (mux : ServeMux) (path : GoString) : Option muxEntry :=
  match mux.find? fun e => e.pattern = path with
  | some e => some e
  | none =>
    longestEntry
      (mux.filter fun e => e.pattern.getLast? = some 47 ∧ e.pattern.isPrefixOf path)

/-- Embedding of `http.StatusText` for the codes the multiplexer answers
with. -/
def StatusText (code : Nat) : GoString :=
  if code = 301 then lit "Moved Permanently"
  else if code = 400 then lit "Bad Request"
  else if code = 404 then lit "Not Found"
  else lit ""

/-- Embedding of `htmlEscape` of net/http. -/
def htmlEscape (s : GoString) : GoString :=
  s.flatMap fun c =>
    if c = 38 then lit "&amp;"
    else if c = 60 then lit "&lt;"
    else if c = 62 then lit "&gt;"
    else if c = 34 then lit "&#34;"
    else if c = 39 then lit "&#39;"
    else [c]

/-- Embedding of `http.Error(w, error, code)`. -/
def Error (error : GoString) (code : Nat) : Handler := fun w r s =>
  let w1 := w.SetHeader (lit "Content-Type") (lit "text/plain; charset=utf-8")
  let w2 := w1.SetHeader (lit "X-Content-Type-Options") (lit "nosniff")
  Outcome.returned ⟨(w2.WriteHeader code).Write (error ++ lit "\n"), r, s⟩

/-- Embedding of `http.NotFoundHandler()`. -/
def NotFoundHandler : Handler :=
  Error (lit "404 page not found") 404

/-- Embedding of `http.RedirectHandler(url, code)` for a target that is a
cleaned rooted path: the `Location` header, the status `code` and, for GET, a
short HTML body.  The percent-escaping of the target is not modelled. -/
def RedirectHandler (url : GoString) (code : Nat) : Handler := fun w r s =>
  let hadCT := w.header (lit "Content-Type") ≠ []
  let w1 := w.SetHeader (lit "Location") url
  let w2 :=
    if ¬ hadCT ∧ (r.Method = lit "GET" ∨ r.Method = lit "HEAD") then
      w1.SetHeader (lit "Content-Type") (lit "text/html; charset=utf-8")
    else w1
  let w3 := w2.WriteHeader code
  let w4 :=
    if ¬ hadCT ∧ r.Method = lit "GET" then
      w3.Write (lit "<a href=\"" ++ htmlEscape url ++ lit "\">" ++ StatusText code ++
        lit "</a>.\n\n")
    else w3
  Outcome.returned ⟨w4, r, s⟩

/-- Text of the URL the multiplexer redirects to: the path and, when there is
one, the query. -/
def redirectTarget (path rawQuery : GoString) : GoString :=
  if rawQuery = [] then path else path ++ lit "?" ++ rawQuery

/-- Embedding of `mux.shouldRedirectRLocked`: the path is not registered but
the path with a slash added is. -/
def ServeMux.shouldRedirect (mux : ServeMux) (path : GoString) : Bool :=
  if mux.any fun e => e.pattern = path then false
  else if path = [] then false
  else if mux.any fun e => e.pattern = path ++ [47] then path.getLast? ≠ some 47
  else false

/-- Embedding of `mux.handler(host, path)`: the matching registration,
`NotFoundHandler` when there is none. -/
def ServeMux.handler (mux : ServeMux) (path : GoString) : Handler :=
  match mux.matchPath path with
  | some e => e.h
  | none => NotFoundHandler

/-- Embedding of `mux.Handler(r)`: the handler that serves the request.
CONNECT requests are routed on the path as sent; every other request is
redirected with status 301 when its path is not the cleaned path. -/
def ServeMux.Handler (mux : ServeMux) (r : Request) : Handler :=
  if r.Method = lit "CONNECT" then
    if mux.shouldRedirect r.URL.Path then
      RedirectHandler (redirectTarget (r.URL.Path ++ [47]) r.URL.RawQuery) 301
    else mux.handler r.URL.Path
  else
    let path := cleanPath r.URL.Path
    if mux.shouldRedirect path then
      RedirectHandler (redirectTarget (path ++ [47]) r.URL.RawQuery) 301
    else if path ≠ r.URL.Path then
      RedirectHandler (redirectTarget path r.URL.RawQuery) 301
    else mux.handler r.URL.Path

/-- Embedding of `mux.ServeHTTP(w, r)`: the request-URI `*` is answered with
400, every other request by the handler `mux.Handler` picks. -/
def ServeMux.ServeHTTP (mux : ServeMux) : Podinfo.Handler := fun w r s =>
  if r.RequestURI = lit "*" then
    let w1 := if r.ProtoAtLeast 1 1 then w.SetHeader (lit "Connection") (lit "close") else w
    Outcome.returned ⟨w1.WriteHeader 400, r, s⟩
  else mux.Handler r w r s

/-! ## net/http: the server around the handler -/

/-- Embedding of `globalOptionsHandler`, which the server uses for
`OPTIONS *`. -/
def globalOptionsHandler : Handler := fun w r s =>
  Outcome.returned ⟨w.SetHeader (lit "Content-Length") (lit "0"), r, s⟩

/-- Embedding of `serverHandler.ServeHTTP`: the handler of the server, except
for `OPTIONS *`, which the server answers itself.  After the call the server
logs a warning when the query of the request holds a semicolon. -/
def serverHandler (handler : Handler) : Handler := fun w r s =>
  let h := if r.RequestURI = lit "*" ∧ r.Method = lit "OPTIONS" then globalOptionsHandler
    else handler
  let o := h w r s
  if r.URL.RawQuery.contains 59 then
    let warn : World → World := fun s1 =>
      s1.Printf (lit ("http: URL query contains semicolon, which is no longer a supported " ++
        "separator; parts of the query may be stripped when parsed; see golang.org/issue/25192"))
        []
    match o with
    | Outcome.returned out => Outcome.returned { out with world := warn out.world }
    | Outcome.panicked v out => Outcome.panicked v { out with world := warn out.world }
  else o

/-- What the server sends for a request whose handler returned. -/
structure Response where
  status : Nat
  header : Header
  body : GoString

/-- What a client gets: a response, or a connection closed without a complete
response when the handler panicked. -/
inductive Answer where
  | response (resp : Response)
  | aborted

/-- The status of a response, none for an aborted exchange. -/
def Answer.status? : Answer → Option Nat
  | Answer.response resp => some resp.status
  | Answer.aborted => none

/-- The body of a response, none for an aborted exchange. -/
def Answer.body? : Answer → Option GoString
  | Answer.response resp => some resp.body
  | Answer.aborted => none

/-- The headers of the handler in a response, none for an aborted exchange. -/
def Answer.header? : Answer → Option Header
  | Answer.response resp => some resp.header
  | Answer.aborted => none

/-- The response the server finishes with when the handler has returned: the
status written, or 200 when none was; the headers of the handler as they stood
when the status was written (the headers the server adds are not modelled);
the bytes the writer accepted, none of them for a HEAD request. -/
def respond (method : GoString) (w : ResponseWriter) : Response :=
  { status := if w.wroteHeader then w.status else 200,
    header := if w.wroteHeader then w.sent else w.header,
    body := if method = lit "HEAD" then [] else w.written }

/-- One request through the server (`conn.serve`): the handler runs on a new
response writer; when it returns the response is finished and sent; when it
panics the server recovers, logs the panic unless its value is
`ErrAbortHandler`, and closes the connection without finishing the
response. -/
def serveWith (handler : Handler) (r : Request) (s : World) : Answer × World :=
  match serverHandler handler ResponseWriter.new r s with
  | Outcome.returned out => (Answer.response (respond out.r.Method out.w), out.world)
  | Outcome.panicked v out =>
    (Answer.aborted,
     if v = PanicValue.abortHandler then out.world
     else out.world.Printf (lit "http: panic serving %v: %v\n%s")
       [.str r.RemoteAddr, .panicValue v, .stack])

/-! ## main.go: `main` -/

/-- Embedding of `os.Getenv(key)`: the value of the variable, the empty string
when it is not set. -/
def Getenv (env : GoString → Option GoString) (key : GoString) : GoString :=
  (env key).getD []

/-- The multiplexer `main` builds (lines 87 to 90); `promhttpHandler` stands
for `promhttp.Handler()`. -/
def mainMux (promhttpHandler : Handler) : ServeMux :=
  ((NewServeMux.Handle (lit "/healthz") healthz).Handle (lit "/metrics") promhttpHandler).Handle
    (lit "/") root

/-- What `main` hands to `http.ListenAndServe`. -/
structure Listen where
  addr : GoString
  handler : Handler

/-- Embedding of `main` up to the blocking call of `http.ListenAndServe`: the
process state after the start-up log line, and the listen address and handler
it passes. -/
def main (env : GoString → Option GoString) (promhttpHandler : Handler) (s : World) :
    World × Listen :=
  let port := Getenv env (lit "PORT")
  let port1 := if port = lit "" then lit "9898" else port
  let mux := mainMux promhttpHandler
  let s1 := s.Printf (lit "Starting server on :%s") [.str port1]
  (s1, { addr := lit ":" ++ port1, handler := loggingMiddleware mux.ServeHTTP })

/-- The server of `main` answering one request. -/
def serve (env : GoString → Option GoString) (promhttpHandler : Handler) (r : Request)
    (s : World) : Answer × World :=
  serveWith (main env promhttpHandler s).2.handler r s

/-- The server answering requests one after another; the result is the process
state after the last one. -/
def serveAll (env : GoString → Option GoString) (promhttpHandler : Handler) :
    List Request → World → World
  | [], s => s
  | r :: rs, s => serveAll env promhttpHandler rs (serve env promhttpHandler r s).2

/-! ## Concrete inputs -/

/-- A process state at start-up: nothing logged, every counter at zero. -/
def world0 : World :=
  { logged := [], requestsTotal := fun _ => 0, rand := fun i => 37 * i + 11, randRead := 0,
    clock := 0 }

/-- A request as the server builds it from a request line and headers. -/
def sampleRequest (method path : GoString) (h : Header) : Request :=
  { Method := method, URL := { Path := path, RawQuery := [] }, ProtoMajor := 1, ProtoMinor := 1,
    RequestURI := path, RemoteAddr := lit "10.0.0.7:51234", Header := h, Body := [] }

/-- Header map with `X-Request-ID: abc-123`. -/
def headerWithID : Header :=
  Header.empty.Set (lit "X-Request-ID") (lit "abc-123")

/-- A stand-in for `promhttp.Handler()` at concrete inputs: it writes an
exposition of one line and logs nothing. -/
def sampleExposition : Handler := fun w r s =>
  Outcome.returned ⟨w.Write (lit "# TYPE http_requests_total counter\n"), r, s⟩

/-- An environment in which `PORT` is not set. -/
def envUnset : GoString → Option GoString := fun _ => none

/-- An environment with `PORT=8080`. -/
def env8080 : GoString → Option GoString :=
  fun k => if k = lit "PORT" then some (lit "8080") else none

/-- A GET whose path has a repeated slash. -/
def uncleanRequest : Request :=
  sampleRequest (lit "GET") (lit "/foo//bar") headerWithID

/-- A GET of `/metrics` carrying `X-Request-ID: abc-123`. -/
def metricsRequest : Request :=
  sampleRequest (lit "GET") (lit "/metrics") headerWithID

/-- The request the server reads from `GET /%ff HTTP/1.1`: the path is a slash
and the byte 255, which is not UTF-8; the request-URI keeps the escape. -/
def badPathRequest : Request :=
  { sampleRequest (lit "GET") [47, 255] headerWithID with RequestURI := lit "/%ff" }

/-- Three GET requests of `/`, with and without `X-Request-ID`. -/
def threeGets : List Request :=
  [sampleRequest (lit "GET") (lit "/") Header.empty,
   sampleRequest (lit "GET") (lit "/") headerWithID,
   sampleRequest (lit "GET") (lit "/") Header.empty]

/-- The value of the panic a call ended with, none when it returned. -/
def Outcome.panicValue? : Outcome → Option PanicValue
  | Outcome.returned _ => none
  | Outcome.panicked v _ => some v

/-! # Theorems -/

/-! ## Header maps -/

theorem Header.Get_Set (h : Header) (key v : GoString) : (h.Set key v).Get key = v := by
  simp [Header.Get, Header.Set]

theorem Header.Set_Set (h : Header) (key v : GoString) :
    (h.Set key v).Set key v = h.Set key v := by
  funext k
  simp only [Header.Set]
  split <;> rfl

/-! ## The generated identifier -/

theorem hexDigit_isHex (m : Fin 16) : isHexByte (hexDigit m) = true := by
  revert m; decide

theorem hexDigit_mod_isHex (n : Nat) : isHexByte (hexDigit (n % 16)) = true :=
  hexDigit_isHex ⟨n % 16, Nat.mod_lt _ (by norm_num)⟩

theorem validUUIDBytes_hex (i : Nat) (n : Nat) (cs : List Nat)
    (hi : ¬ (i = 8 ∨ i = 13 ∨ i = 18 ∨ i = 23)) :
    validUUIDBytes i (hexDigit (n % 16) :: cs) = validUUIDBytes (i + 1) cs := by
  simp only [validUUIDBytes, if_neg hi, hexDigit_mod_isHex, Bool.true_and]

theorem validUUIDBytes_hyphen (i : Nat) (cs : List Nat)
    (hi : i = 8 ∨ i = 13 ∨ i = 18 ∨ i = 23) :
    validUUIDBytes i (45 :: cs) = validUUIDBytes (i + 1) cs := by
  simp only [validUUIDBytes, if_pos hi, beq_self_eq_true, Bool.true_and]

theorem uuidString_valid (u : Nat → Nat) : validUUIDString (uuidString u) = true := by
  unfold validUUIDString uuidString
  simp only [hexByte, List.cons_append, List.nil_append]
  repeat first
    | rw [validUUIDBytes_hex _ _ _ (by decide)]
    | rw [validUUIDBytes_hyphen _ _ (by decide)]
  rfl

theorem uuidString_ne_empty (u : Nat → Nat) : uuidString u ≠ lit "" := by
  intro h
  have h2 : uuidString u = [] := h
  simp only [uuidString, hexByte, List.cons_append] at h2
  exact List.cons_ne_nil _ _ h2

/-! ## Resolution of the correlation ID -/

theorem resolveID_of_present (r : Request) (s : World) (v : GoString)
    (hv : r.Header.Get (lit "X-Request-ID") = v) (hne : v ≠ lit "") :
    resolveID r s = (v, { r with Header := r.Header.Set (lit "X-Request-ID") v }, s) := by
  simp [resolveID, hv, hne]

theorem resolveID_of_absent (r : Request) (s : World)
    (hv : r.Header.Get (lit "X-Request-ID") = lit "") :
    resolveID r s = (uuidString (uuidNew s).1,
      { r with Header := r.Header.Set (lit "X-Request-ID") (uuidString (uuidNew s).1) },
      (uuidNew s).2) := by
  simp [resolveID, hv]

theorem resolveID_header (r : Request) (s : World) :
    (resolveID r s).2.1.Header.Get (lit "X-Request-ID") = (resolveID r s).1 := by
  simp only [resolveID, Header.Get_Set]

theorem resolveID_logged (r : Request) (s : World) : (resolveID r s).2.2.logged = s.logged := by
  unfold resolveID
  by_cases h : r.Header.Get (lit "X-Request-ID") = lit "" <;> simp [h, uuidNew]

theorem resolveID_clock (r : Request) (s : World) : (resolveID r s).2.2.clock = s.clock := by
  unfold resolveID
  by_cases h : r.Header.Get (lit "X-Request-ID") = lit "" <;> simp [h, uuidNew]

theorem resolveID_requestsTotal (r : Request) (s : World) :
    (resolveID r s).2.2.requestsTotal = s.requestsTotal := by
  unfold resolveID
  by_cases h : r.Header.Get (lit "X-Request-ID") = lit "" <;> simp [h, uuidNew]

theorem resolveID_randRead (r : Request) (s : World) :
    (resolveID r s).2.2.randRead ≤ s.randRead + 16 := by
  unfold resolveID
  by_cases h : r.Header.Get (lit "X-Request-ID") = lit "" <;> simp [h, uuidNew]

theorem resolveID_ne_empty_of_gen (r : Request) (s : World)
    (hgen : ∀ s0 : World, uuidString (uuidNew s0).1 ≠ lit "") : (resolveID r s).1 ≠ lit "" := by
  unfold resolveID
  by_cases h : r.Header.Get (lit "X-Request-ID") = lit ""
  · simp only [h, if_true]
    exact hgen s
  · simp only [h, if_false]
    exact h

/-! ## The counter call and the completion step -/

theorem World.Inc_ok (s : World) (p m : GoString) (hp : utf8ValidString p = true)
    (hm : utf8ValidString m = true) :
    s.Inc (p, m, lit "200") =
      Except.ok { s with requestsTotal := fun k =>
        if k = (p, m, lit "200") then s.requestsTotal k + 1 else s.requestsTotal k } := by
  have h200 : utf8ValidString (lit "200") = true := by decide
  simp [World.Inc, invalidLabelValue, List.find?, hp, hm, h200]

theorem World.Inc_inv (s s2 : World) (l : Labels) (h : s.Inc l = Except.ok s2) :
    s2 = { s with requestsTotal := fun k =>
      if k = l then s.requestsTotal k + 1 else s.requestsTotal k } := by
  unfold World.Inc at h
  split at h
  · exact absurd h (by simp)
  · injection h with h
    exact h.symm

theorem loggingMiddleware_eq (next : Handler) (w : ResponseWriter) (r : Request) (s : World) :
    loggingMiddleware next w r s =
      complete (resolveID r s).1 s.clock
        (next w (resolveID r s).2.1
          ((resolveID r s).2.2.Printf (lit "[%s] %s %s from %s")
            [.str (resolveID r s).1, .str r.Method, .str r.URL.Path, .str r.RemoteAddr])) := rfl

theorem complete_returned (id : GoString) (start : Int) (out : Served)
    (hp : utf8ValidString out.r.URL.Path = true) (hm : utf8ValidString out.r.Method = true) :
    complete id start (Outcome.returned out) =
      Outcome.returned ⟨out.w, out.r,
        { out.world with
          requestsTotal := fun k =>
            if k = (out.r.URL.Path, out.r.Method, lit "200") then out.world.requestsTotal k + 1
            else out.world.requestsTotal k,
          logged := out.world.logged ++
            [⟨lit "[%s] Completed %s %s in %v",
              [.str id, .str out.r.Method, .str out.r.URL.Path,
               .duration (out.world.clock - start)]⟩] }⟩ := by
  simp only [complete, World.Inc_ok _ _ _ hp hm]
  rfl

theorem complete_state_w (id : GoString) (start : Int) (o : Outcome) :
    (complete id start o).state.w = o.state.w ∧ (complete id start o).state.r = o.state.r := by
  cases o with
  | panicked v out => exact ⟨rfl, rfl⟩
  | returned out =>
    simp only [complete]
    cases out.world.Inc (out.r.URL.Path, out.r.Method, lit "200") <;> exact ⟨rfl, rfl⟩

theorem complete_state_randRead (id : GoString) (start : Int) (o : Outcome) :
    (complete id start o).state.world.randRead = o.state.world.randRead := by
  cases o with
  | panicked v out => rfl
  | returned out =>
    simp only [complete]
    cases h : out.world.Inc (out.r.URL.Path, out.r.Method, lit "200") with
    | error v => rfl
    | ok s2 => rw [World.Inc_inv _ _ _ h]; rfl

theorem complete_state_logged (id : GoString) (start : Int) (o : Outcome) :
    (complete id start o).state.world.logged = o.state.world.logged ∨
    (complete id start o).state.world.logged = o.state.world.logged ++
      [⟨lit "[%s] Completed %s %s in %v",
        [.str id, .str o.state.r.Method, .str o.state.r.URL.Path,
         .duration (o.state.world.clock - start)]⟩] := by
  cases o with
  | panicked v out => exact Or.inl rfl
  | returned out =>
    simp only [complete]
    cases h : out.world.Inc (out.r.URL.Path, out.r.Method, lit "200") with
    | error v => exact Or.inl rfl
    | ok s2 => right; rw [World.Inc_inv _ _ _ h]; rfl

/-! ## Propagation and generation -/

/-- C1 (propagation).  When the request carries a non-empty `X-Request-ID`
value `v`, `loggingMiddleware` uses `v` and generates nothing: the handler is
called on the request with `X-Request-ID` set to `v` and on a process state
that differs from the incoming one by the entry line alone, which carries `v`
(so no byte of the random source was read); the call ends as lines 51 to 55
make of the handler's outcome.  When the handler returns (leaving a path and a
method that are valid UTF-8, so that the counter call does not panic) the log
is the handler's log followed by the completion line carrying `v`; in every
case the middleware adds nothing after the handler but that line, and reads no
random byte. -/
theorem loggingMiddleware_propagates (next : Handler) (w : ResponseWriter) (r : Request)
    (s : World) (v : GoString) (hv : r.Header.Get (lit "X-Request-ID") = v)
    (hne : v ≠ lit "") :
    let r1 : Request := { r with Header := r.Header.Set (lit "X-Request-ID") v }
    let s1 : World := { s with logged := s.logged ++
      [⟨lit "[%s] %s %s from %s",
        [.str v, .str r.Method, .str r.URL.Path, .str r.RemoteAddr]⟩] }
    let o := next w r1 s1
    let res := loggingMiddleware next w r s
    res = complete v s.clock o ∧
    r1.Header.Get (lit "X-Request-ID") = v ∧
    s1.randRead = s.randRead ∧
    (∀ out : Served, o = Outcome.returned out → utf8ValidString out.r.URL.Path = true →
      utf8ValidString out.r.Method = true →
      res.panicValue? = none ∧
      res.state.world.logged = out.world.logged ++
        [⟨lit "[%s] Completed %s %s in %v",
          [.str v, .str out.r.Method, .str out.r.URL.Path,
           .duration (out.world.clock - s.clock)]⟩]) ∧
    (res.state.world.logged = o.state.world.logged ∨
     res.state.world.logged = o.state.world.logged ++
        [⟨lit "[%s] Completed %s %s in %v",
          [.str v, .str o.state.r.Method, .str o.state.r.URL.Path,
           .duration (o.state.world.clock - s.clock)]⟩]) ∧
    res.state.world.randRead = o.state.world.randRead := by
  intro r1 s1 o res
  have h : res = complete v s.clock o := by
    show loggingMiddleware next w r s = _
    simp only [loggingMiddleware, resolveID_of_present r s v hv hne, World.Printf]
  refine ⟨h, Header.Get_Set _ _ _, rfl, ?_, ?_, ?_⟩
  · intro out ho hp hm
    rw [h, ho, complete_returned v s.clock out hp hm]
    exact ⟨rfl, rfl⟩
  · rw [h]; exact complete_state_logged _ _ _
  · rw [h]; exact complete_state_randRead _ _ _

/-- Witness of C1: a GET of `/` carrying `X-Request-ID: abc-123`, served by
`root`. -/
theorem loggingMiddleware_propagates_witness :
    (sampleRequest (lit "GET") (lit "/") headerWithID).Header.Get (lit "X-Request-ID") =
      lit "abc-123" ∧
    lit "abc-123" ≠ lit "" ∧
    (loggingMiddleware root ResponseWriter.new (sampleRequest (lit "GET") (lit "/") headerWithID)
      world0).state.world.logged =
      [⟨lit "[%s] %s %s from %s",
         [.str (lit "abc-123"), .str (lit "GET"), .str (lit "/"), .str (lit "10.0.0.7:51234")]⟩,
       ⟨lit "[%s] Completed %s %s in %v",
         [.str (lit "abc-123"), .str (lit "GET"), .str (lit "/"), .duration 0]⟩] :=
  ⟨Header.Get_Set _ _ _, by decide,
   ((loggingMiddleware_propagates root ResponseWriter.new
      (sampleRequest (lit "GET") (lit "/") headerWithID) world0 (lit "abc-123")
      (Header.Get_Set _ _ _) (by decide)).2.2.2.1 _ rfl (by decide) (by decide)).2⟩

/-- C2 (generation).  When `X-Request-ID` is absent or empty, `loggingMiddleware`
takes one ID from the generator (16 bytes of the random source, read once);
the ID is non-empty and a syntactically valid UUID string; the entry line
carries it and the request handed to the handler has it as `X-Request-ID`.
When the handler returns (leaving a path and a method that are valid UTF-8, so
that the counter call does not panic) the log is the handler's log followed by
the completion line carrying the ID; in every case the middleware adds nothing
after the handler but that line, and nothing more is read from the random
source before the handler is called or after it ended. -/
theorem loggingMiddleware_generates (next : Handler) (w : ResponseWriter) (r : Request)
    (s : World) (hv : r.Header.Get (lit "X-Request-ID") = lit "") :
    let id := uuidString (uuidNew s).1
    let r1 : Request := { r with Header := r.Header.Set (lit "X-Request-ID") id }
    let s1 : World := { s with randRead := s.randRead + 16, logged := s.logged ++
      [⟨lit "[%s] %s %s from %s",
        [.str id, .str r.Method, .str r.URL.Path, .str r.RemoteAddr]⟩] }
    let o := next w r1 s1
    let res := loggingMiddleware next w r s
    id ≠ lit "" ∧ validUUIDString id = true ∧
    res = complete id s.clock o ∧
    r1.Header.Get (lit "X-Request-ID") = id ∧
    (∀ out : Served, o = Outcome.returned out → utf8ValidString out.r.URL.Path = true →
      utf8ValidString out.r.Method = true →
      res.panicValue? = none ∧
      res.state.world.logged = out.world.logged ++
        [⟨lit "[%s] Completed %s %s in %v",
          [.str id, .str out.r.Method, .str out.r.URL.Path,
           .duration (out.world.clock - s.clock)]⟩]) ∧
    (res.state.world.logged = o.state.world.logged ∨
     res.state.world.logged = o.state.world.logged ++
        [⟨lit "[%s] Completed %s %s in %v",
          [.str id, .str o.state.r.Method, .str o.state.r.URL.Path,
           .duration (o.state.world.clock - s.clock)]⟩]) ∧
    res.state.world.randRead = o.state.world.randRead := by
  intro id r1 s1 o res
  have h : res = complete id s.clock o := by
    show loggingMiddleware next w r s = _
    simp only [loggingMiddleware, resolveID_of_absent r s hv, World.Printf]
    rfl
  refine ⟨uuidString_ne_empty _, uuidString_valid _, h, Header.Get_Set _ _ _, ?_, ?_, ?_⟩
  · intro out ho hp hm
    rw [h, ho, complete_returned id s.clock out hp hm]
    exact ⟨rfl, rfl⟩
  · rw [h]; exact complete_state_logged _ _ _
  · rw [h]; exact complete_state_randRead _ _ _

/-- Witness of C2: a GET of `/` without `X-Request-ID`, served by `root`. -/
theorem loggingMiddleware_generates_witness :
    (sampleRequest (lit "GET") (lit "/") Header.empty).Header.Get (lit "X-Request-ID") =
      lit "" ∧
    (loggingMiddleware root ResponseWriter.new (sampleRequest (lit "GET") (lit "/") Header.empty)
      world0).state.world.logged =
      [⟨lit "[%s] %s %s from %s",
         [.str (lit "0b30557a-9fc4-490e-b358-7da2c7ec1136"), .str (lit "GET"), .str (lit "/"),
          .str (lit "10.0.0.7:51234")]⟩,
       ⟨lit "[%s] Completed %s %s in %v",
         [.str (lit "0b30557a-9fc4-490e-b358-7da2c7ec1136"), .str (lit "GET"), .str (lit "/"),
          .duration 0]⟩] :=
  ⟨rfl,
   ((loggingMiddleware_generates root ResponseWriter.new
      (sampleRequest (lit "GET") (lit "/") Header.empty) world0 rfl).2.2.2.2.1 _ rfl (by decide)
      (by decide)).2.trans (by decide)⟩

/-! ## The status label -/

/-- C6, as stated, fails: a GET of `/%ff` carries a path that is not valid
UTF-8; `root` returns on it, but `loggingMiddleware` does not increment the
counter labelled with the path, the method and `"200"`: the counter call
panics, the counter stays at 0 and no completion line is logged. -/
theorem loggingMiddleware_bad_path_panics :
    (root ResponseWriter.new (resolveID badPathRequest world0).2.1
      ((resolveID badPathRequest world0).2.2.Printf (lit "[%s] %s %s from %s")
        [.str (resolveID badPathRequest world0).1, .str badPathRequest.Method,
         .str badPathRequest.URL.Path, .str badPathRequest.RemoteAddr])).panicValue? = none ∧
    (loggingMiddleware root ResponseWriter.new badPathRequest world0).panicValue? =
      some (PanicValue.labelNotUTF8 [47, 255]) ∧
    (loggingMiddleware root ResponseWriter.new badPathRequest world0).state.world.requestsTotal
      ([47, 255], lit "GET", lit "200") = 0 ∧
    (loggingMiddleware root ResponseWriter.new badPathRequest world0).state.world.logged.length
      = 1 := by
  decide

/-- C6, amended.  For every request and every next handler that returns leaving
a request whose path and method are valid UTF-8, whatever status that handler
wrote on the response writer, which the middleware passes on untouched,
`loggingMiddleware` returns and adds exactly 1 to the counter labelled with the
path and the method of the request (read when the handler has returned) and
the constant status `"200"`, and leaves the counter of every other label triple
as the handler left it. -/
theorem loggingMiddleware_counts_fixed_status (next : Handler) (w : ResponseWriter)
    (r : Request) (s : World) (out : Served)
    (hret : next w (resolveID r s).2.1
      ((resolveID r s).2.2.Printf (lit "[%s] %s %s from %s")
        [.str (resolveID r s).1, .str r.Method, .str r.URL.Path, .str r.RemoteAddr]) =
      Outcome.returned out)
    (hpath : utf8ValidString out.r.URL.Path = true)
    (hmethod : utf8ValidString out.r.Method = true) :
    let res := loggingMiddleware next w r s
    res.panicValue? = none ∧
    res.state.w = out.w ∧ res.state.r = out.r ∧
    res.state.world.requestsTotal (out.r.URL.Path, out.r.Method, lit "200") =
      out.world.requestsTotal (out.r.URL.Path, out.r.Method, lit "200") + 1 ∧
    ∀ l : Labels, l ≠ (out.r.URL.Path, out.r.Method, lit "200") →
      res.state.world.requestsTotal l = out.world.requestsTotal l := by
  intro res
  have h : res = _ :=
    (loggingMiddleware_eq next w r s).trans
      ((congrArg _ hret).trans (complete_returned _ s.clock out hpath hmethod))
  rw [h]
  refine ⟨rfl, rfl, rfl, ?_, ?_⟩
  · show (if _ then _ else _) = _
    rw [if_pos rfl]
  · intro l hl
    show (if _ then _ else _) = _
    rw [if_neg hl]

/-- Witness of C6 (amended), at a handler that answers 404: `NotFoundHandler`
behind the middleware, a GET of `/missing` from the start-up state.  The status
written is 404, the counter with status label `"200"` is 1 and the one with
`"404"` stays 0. -/
theorem loggingMiddleware_counts_fixed_status_witness :
    utf8ValidString (lit "/missing") = true ∧ utf8ValidString (lit "GET") = true ∧
    (loggingMiddleware NotFoundHandler ResponseWriter.new
      (sampleRequest (lit "GET") (lit "/missing") headerWithID) world0).state.w.status = 404 ∧
    (loggingMiddleware NotFoundHandler ResponseWriter.new
      (sampleRequest (lit "GET") (lit "/missing") headerWithID) world0).state.world.requestsTotal
      (lit "/missing", lit "GET", lit "200") = 1 ∧
    (loggingMiddleware NotFoundHandler ResponseWriter.new
      (sampleRequest (lit "GET") (lit "/missing") headerWithID) world0).state.world.requestsTotal
      (lit "/missing", lit "GET", lit "404") = 0 :=
  have h := loggingMiddleware_counts_fixed_status NotFoundHandler ResponseWriter.new
    (sampleRequest (lit "GET") (lit "/missing") headerWithID) world0 _ rfl (by decide)
    (by decide)
  ⟨by decide, by decide, (congrArg ResponseWriter.status h.2.1).trans (by decide), h.2.2.2.1,
   (h.2.2.2.2 (lit "/missing", lit "GET", lit "404") (by decide)).trans rfl⟩

/-- What line 54 does when the path or the method the handler left is not
valid UTF-8: the call panics with the state the handler left, no counter is
changed and no completion line is logged. -/
theorem complete_panics_of_invalid (id : GoString) (start : Int) (out : Served)
    (h : utf8ValidString out.r.URL.Path = false ∨ utf8ValidString out.r.Method = false) :
    ∃ v, complete id start (Outcome.returned out) = Outcome.panicked v out := by
  have hinv : invalidLabelValue [out.r.URL.Path, out.r.Method, lit "200"] ≠ none := by
    rcases h with h | h
    · simp [invalidLabelValue, List.find?, h]
    · cases hp : utf8ValidString out.r.URL.Path <;> simp [invalidLabelValue, List.find?, h, hp]
  cases hv : invalidLabelValue [out.r.URL.Path, out.r.Method, lit "200"] with
  | none => exact absurd hv hinv
  | some v =>
    refine ⟨PanicValue.labelNotUTF8 v, ?_⟩
    simp only [complete, World.Inc, hv]

/-! ## Idempotence of the resolution -/

/-- C10 (idempotence).  Provided the generator never returns the empty string,
the resolution of lines 40 to 44 applied to a request that has been through
it, in any process state, returns the same ID, the same request (the header
map included) and the process state untouched: no ID is generated.  Hence a
doubly wrapped handler is called once, on the request and the ID the outer
layer resolved, after two entry lines carrying that ID; both layers complete
with it; at most one ID (16 bytes of the random source) has been taken when the
handler is called and none is taken after it ended. -/
theorem resolveID_idempotent (r : Request) (s : World)
    (hgen : ∀ s0 : World, uuidString (uuidNew s0).1 ≠ lit "") :
    let id := (resolveID r s).1
    let r1 := (resolveID r s).2.1
    let s1 := (resolveID r s).2.2
    (∀ s2 : World, resolveID r1 s2 = (id, r1, s2)) ∧
    (∀ (h : Handler) (w : ResponseWriter),
      let o := h w r1 { s1 with logged := s.logged ++
        [⟨lit "[%s] %s %s from %s",
           [.str id, .str r.Method, .str r.URL.Path, .str r.RemoteAddr]⟩,
         ⟨lit "[%s] %s %s from %s",
           [.str id, .str r.Method, .str r.URL.Path, .str r.RemoteAddr]⟩] }
      loggingMiddleware (loggingMiddleware h) w r s =
        complete id s.clock (complete id s.clock o) ∧
      (loggingMiddleware (loggingMiddleware h) w r s).state.world.randRead =
        o.state.world.randRead) ∧
    s1.randRead ≤ s.randRead + 16 := by
  intro id r1 s1
  have hidem : ∀ s2 : World,
      resolveID (resolveID r s).2.1 s2 = ((resolveID r s).1, (resolveID r s).2.1, s2) := by
    intro s2
    rw [resolveID_of_present (resolveID r s).2.1 s2 (resolveID r s).1 (resolveID_header r s)
      (resolveID_ne_empty_of_gen r s hgen)]
    have hh : (resolveID r s).2.1.Header.Set (lit "X-Request-ID") (resolveID r s).1 =
        (resolveID r s).2.1.Header := Header.Set_Set _ _ _
    rw [hh]
  refine ⟨hidem, ?_, resolveID_randRead r s⟩
  intro h w o
  have heq : loggingMiddleware (loggingMiddleware h) w r s =
      complete id s.clock (complete id s.clock o) := by
    rw [loggingMiddleware_eq (loggingMiddleware h) w r s, loggingMiddleware_eq h]
    simp only [hidem, World.Printf, resolveID_clock, resolveID_logged, List.append_assoc,
      List.singleton_append]
    show _ = complete id s.clock (complete id s.clock (h w r1 _))
    rw [show s1.clock = s.clock from resolveID_clock r s]
    rfl
  exact ⟨heq, by rw [heq, complete_state_randRead, complete_state_randRead]⟩

/-- Witness of C10: the generator of the model never returns the empty string;
a GET of `/` without `X-Request-ID` resolved twice. -/
theorem resolveID_idempotent_witness :
    (∀ s0 : World, uuidString (uuidNew s0).1 ≠ lit "") ∧
    (resolveID (resolveID (sampleRequest (lit "GET") (lit "/") Header.empty) world0).2.1
      world0).1 = lit "0b30557a-9fc4-490e-b358-7da2c7ec1136" :=
  ⟨fun s0 => uuidString_ne_empty _,
   (congrArg Prod.fst ((resolveID_idempotent (sampleRequest (lit "GET") (lit "/") Header.empty)
      world0 (fun s0 => uuidString_ne_empty _)).1 world0)).trans (by decide)⟩

/-! ## The health handler -/

theorem healthz_eq (w0 : ResponseWriter) (r : Request) (s : World) :
    healthz w0 r s =
      Outcome.returned
        ⟨(w0.SetHeader (lit "Content-Type") (lit "application/json")).Write
            (lit "\x7b\"status\":\"healthy\"\x7d\n"),
         r, s.Printf (lit "[%s] Health check") [.str (r.Header.Get (lit "X-Request-ID"))]⟩ := by
  have hm : (Health.Marshal { Status := lit "healthy" }) ++ lit "\n" =
      lit "\x7b\"status\":\"healthy\"\x7d\n" := by decide
  simp only [healthz, EncoderEncode, hm]

/-- C3 (health response).  For every request, `healthz` returns and, on the
writer of a new response, leaves `Content-Type: application/json`, the status
200 and written bytes that decode as JSON to an object whose member `status`
is the string `healthy`; what it leaves on a writer is the same for every
request and process state; and `healthz` writes no status of its own: the 200
comes from the first write, a status written before the call stays. -/
theorem healthz_response (r : Request) (s : World) :
    let w := (healthz ResponseWriter.new r s).state.w
    (healthz ResponseWriter.new r s).panicValue? = none ∧
    w.header.Get (lit "Content-Type") = lit "application/json" ∧
    w.sent.Get (lit "Content-Type") = lit "application/json" ∧
    w.wroteHeader = true ∧ w.status = 200 ∧
    (∃ members, decodeJSON w.written = some (Json.obj members) ∧
      (Json.obj members).field "status" = some (Json.str "healthy")) ∧
    (∀ (w0 : ResponseWriter) (r2 : Request) (s2 : World),
      (healthz w0 r2 s2).state.w = (healthz w0 r s).state.w) ∧
    ∀ w0 : ResponseWriter,
      (healthz w0 r s).state.w.status = if w0.wroteHeader then w0.status else 200 := by
  intro w
  have hw : w = (ResponseWriter.new.SetHeader (lit "Content-Type")
      (lit "application/json")).Write (lit "\x7b\"status\":\"healthy\"\x7d\n") := by
    show (healthz ResponseWriter.new r s).state.w = _
    rw [healthz_eq]; rfl
  refine ⟨rfl, ?_, ?_, ?_, ?_, ⟨[("status", Json.str "healthy")], ?_, rfl⟩, ?_, ?_⟩
  · rw [hw]
    show (ResponseWriter.new.header.Set (lit "Content-Type") (lit "application/json")).Get
      (lit "Content-Type") = _
    exact Header.Get_Set _ _ _
  · rw [hw]
    show (ResponseWriter.new.header.Set (lit "Content-Type") (lit "application/json")).Get
      (lit "Content-Type") = _
    exact Header.Get_Set _ _ _
  · rw [hw]; rfl
  · rw [hw]; rfl
  · rw [hw]
    show decodeJSON (lit "\x7b\"status\":\"healthy\"\x7d\n") = _
    rfl
  · intro w0 r2 s2
    rw [healthz_eq, healthz_eq]; rfl
  · intro w0
    rw [healthz_eq]
    show ((w0.SetHeader _ _).Write _).status = _
    have hb : lit "\x7b\"status\":\"healthy\"\x7d\n" ≠ [] := by decide
    cases hw0 : w0.wroteHeader <;>
      simp only [ResponseWriter.Write, ResponseWriter.SetHeader, ResponseWriter.WriteHeader, hw0,
        hb, if_false, if_true, Bool.false_eq_true] <;> split <;> rfl

/-- C9, as stated, fails: the bytes `healthz` writes for a health response are
not the bare object text, a newline follows it. -/
theorem healthz_body_not_bare :
    (healthz ResponseWriter.new (sampleRequest (lit "GET") (lit "/healthz") Header.empty)
      world0).state.w.written ≠ lit "\x7b\"status\":\"healthy\"\x7d" := by
  decide

/-- C9, amended.  For every request the bytes `healthz` writes on a new response
are the object text followed by one newline character, nothing before the
object and nothing after the newline; on any writer `healthz` makes one `Write`
call, with exactly these bytes.  For a GET of `/healthz` they are the body the
server of `main` answers with. -/
theorem healthz_body_exact (r : Request) (s : World) :
    (healthz ResponseWriter.new r s).state.w.written = lit "\x7b\"status\":\"healthy\"\x7d\n" ∧
    (∀ w0 : ResponseWriter,
      (healthz w0 r s).state.w =
        (w0.SetHeader (lit "Content-Type") (lit "application/json")).Write
          (lit "\x7b\"status\":\"healthy\"\x7d\n")) ∧
    (serve envUnset sampleExposition (sampleRequest (lit "GET") (lit "/healthz") Header.empty)
      world0).1.body? = some (lit "\x7b\"status\":\"healthy\"\x7d\n") := by
  refine ⟨?_, ?_, by decide⟩
  · rw [healthz_eq]; rfl
  · intro w0
    rw [healthz_eq]; rfl

/-! ## Port resolution -/

/-- C7 (port resolution).  With `PORT` unset or empty `main` listens on
`:9898`; with `PORT` set to a non-empty `p` it listens on `:` followed by `p`
unchanged. -/
theorem main_listen_addr (env : GoString → Option GoString) (promhttpHandler : Handler)
    (s : World) :
    ((env (lit "PORT") = none ∨ env (lit "PORT") = some (lit "")) →
      (main env promhttpHandler s).2.addr = lit ":9898") ∧
    ∀ p : GoString, p ≠ lit "" → env (lit "PORT") = some p →
      (main env promhttpHandler s).2.addr = lit ":" ++ p := by
  constructor
  · rintro (h | h) <;> simp [main, Getenv, h] <;> decide
  · intro p hp h
    simp [main, Getenv, h, hp]

/-- C7 at the two environments of the spec: `PORT` unset, and `PORT=8080`. -/
theorem main_listen_addr_examples :
    (main envUnset sampleExposition world0).2.addr = lit ":9898" ∧
    (main env8080 sampleExposition world0).2.addr = lit ":8080" :=
  ⟨(main_listen_addr envUnset sampleExposition world0).1 (Or.inl rfl),
   ((main_listen_addr env8080 sampleExposition world0).2 (lit "8080") (by decide)
      (by decide)).trans (by decide)⟩

/-! ## Routing of the multiplexer of `main` -/

theorem append_slash_ne_of_last (p q : GoString) (hq : q.getLast? ≠ some 47) :
    q ≠ p ++ [47] := by
  intro h
  apply hq
  rw [h]
  exact List.getLast?_concat _

theorem slash_ne_append_slash (p : GoString) (hp : p ≠ []) : lit "/" ≠ p ++ [47] := by
  intro h
  have h2 := congrArg List.length h
  rw [List.length_append] at h2
  have h3 : p.length = 0 := by
    have : (lit "/").length = 1 := rfl
    simp only [List.length_singleton] at h2
    omega
  exact hp (List.length_eq_zero.mp h3)

theorem ne_empty_of_head (p : GoString) (hp : p.head? = some 47) : p ≠ [] := by
  intro h
  rw [h] at hp
  exact absurd hp (by decide)

theorem mainMux_shouldRedirect (promhttpHandler : Handler) (p : GoString)
    (hp : p.head? = some 47) :
    (mainMux promhttpHandler).shouldRedirect p = false := by
  have h0 := ne_empty_of_head p hp
  have h1 : lit "/healthz" ≠ p ++ [47] := append_slash_ne_of_last p _ (by decide)
  have h2 : lit "/metrics" ≠ p ++ [47] := append_slash_ne_of_last p _ (by decide)
  have h3 : lit "/" ≠ p ++ [47] := slash_ne_append_slash p h0
  simp [ServeMux.shouldRedirect, mainMux, ServeMux.Handle, NewServeMux, h0, h1, h2, h3]

theorem mainMux_matchPath_root (promhttpHandler : Handler) (p : GoString)
    (hp : p.head? = some 47) (h1 : p ≠ lit "/healthz") (h2 : p ≠ lit "/metrics") :
    ((mainMux promhttpHandler).matchPath p).map muxEntry.h = some root := by
  have hpre : (lit "/").isPrefixOf p = true := by
    cases hd : p with
    | nil => rw [hd] at hp; exact absurd hp (by decide)
    | cons c cs =>
      rw [hd] at hp
      simp only [List.head?_cons, Option.some.injEq] at hp
      subst hp
      simp [lit, utf8EncodeRune, List.isPrefixOf]
  have hl1 : ¬ ((lit "/healthz").getLast? = some 47) := by decide
  have hl2 : ¬ ((lit "/metrics").getLast? = some 47) := by decide
  have hl3 : (lit "/").getLast? = some 47 := by decide
  by_cases h3 : p = lit "/"
  · subst h3
    rfl
  · have e1 : ¬ (lit "/healthz" = p) := fun h => h1 h.symm
    have e2 : ¬ (lit "/metrics" = p) := fun h => h2 h.symm
    have e3 : ¬ (lit "/" = p) := fun h => h3 h.symm
    simp [ServeMux.matchPath, mainMux, ServeMux.Handle, NewServeMux, List.find?, e1, e2, e3,
      List.filter, hpre, hl1, hl2, hl3, longestEntry]

theorem mainMux_handler_root (promhttpHandler : Handler) (p : GoString)
    (hp : p.head? = some 47) (h1 : p ≠ lit "/healthz") (h2 : p ≠ lit "/metrics") :
    (mainMux promhttpHandler).handler p = root := by
  have h := mainMux_matchPath_root promhttpHandler p hp h1 h2
  unfold ServeMux.handler
  cases hm : (mainMux promhttpHandler).matchPath p with
  | none => rw [hm] at h; exact absurd h (by simp)
  | some e =>
    rw [hm] at h
    simpa using h

/-- The route of a request the catch-all pattern serves. -/
theorem mainMux_Handler_root (promhttpHandler : Handler) (r : Request)
    (hp : r.URL.Path.head? = some 47)
    (hclean : r.Method ≠ lit "CONNECT" → cleanPath r.URL.Path = r.URL.Path)
    (h1 : r.URL.Path ≠ lit "/healthz") (h2 : r.URL.Path ≠ lit "/metrics") :
    (mainMux promhttpHandler).Handler r = root := by
  unfold ServeMux.Handler
  by_cases hc : r.Method = lit "CONNECT"
  · rw [if_pos hc, mainMux_shouldRedirect _ _ hp]
    simp only [Bool.false_eq_true, if_false]
    exact mainMux_handler_root _ _ hp h1 h2
  · rw [if_neg hc]
    simp only [hclean hc, mainMux_shouldRedirect _ _ hp, Bool.false_eq_true, if_false,
      ne_eq, not_true_eq_false]
    exact mainMux_handler_root _ _ hp h1 h2

/-! ## The server around the handler -/

theorem serve_eq (env : GoString → Option GoString) (promhttpHandler : Handler) (r : Request)
    (s : World) :
    serve env promhttpHandler r s =
      serveWith (loggingMiddleware (mainMux promhttpHandler).ServeHTTP) r s := rfl

/-- A request that is not `OPTIONS *` and whose handler returns is answered
with the response finished from what the handler left; the server changes no
counter. -/
theorem serveWith_of_returned (handler : Handler) (r : Request) (s : World) (out : Served)
    (hopt : ¬ (r.RequestURI = lit "*" ∧ r.Method = lit "OPTIONS"))
    (hret : handler ResponseWriter.new r s = Outcome.returned out) :
    (serveWith handler r s).1 = Answer.response (respond out.r.Method out.w) ∧
    (serveWith handler r s).2.requestsTotal = out.world.requestsTotal := by
  unfold serveWith serverHandler
  simp only [hopt, if_false, hret]
  by_cases hq : r.URL.RawQuery.contains 59 = true
  · rw [if_pos hq]; exact ⟨rfl, rfl⟩
  · rw [if_neg hq]; exact ⟨rfl, rfl⟩

/-- The server of `main` on a request the multiplexer hands to `root`, with a
path and a method that are valid UTF-8. -/
theorem serve_of_root (env : GoString → Option GoString) (promhttpHandler : Handler)
    (r : Request) (s : World)
    (hopt : ¬ (r.RequestURI = lit "*" ∧ r.Method = lit "OPTIONS"))
    (hroute : ∀ (w : ResponseWriter) (s1 : World),
      (mainMux promhttpHandler).ServeHTTP w (resolveID r s).2.1 s1 =
        root w (resolveID r s).2.1 s1)
    (hpath : utf8ValidString r.URL.Path = true) (hmethod : utf8ValidString r.Method = true) :
    (serve env promhttpHandler r s).1 =
      Answer.response (respond r.Method
        (ResponseWriter.new.Write (lit "Podinfo from scratch! Req ID: " ++ (resolveID r s).1))) ∧
    ∀ l : Labels, (serve env promhttpHandler r s).2.requestsTotal l =
      if l = (r.URL.Path, r.Method, lit "200") then s.requestsTotal l + 1
      else s.requestsTotal l := by
  have hlm := loggingMiddleware_eq (mainMux promhttpHandler).ServeHTTP ResponseWriter.new r s
  rw [hroute] at hlm
  have hroot : root ResponseWriter.new (resolveID r s).2.1
      ((resolveID r s).2.2.Printf (lit "[%s] %s %s from %s")
        [.str (resolveID r s).1, .str r.Method, .str r.URL.Path, .str r.RemoteAddr]) =
      Outcome.returned ⟨ResponseWriter.new.Write
        (lit "Podinfo from scratch! Req ID: " ++ (resolveID r s).1), (resolveID r s).2.1,
        (resolveID r s).2.2.Printf (lit "[%s] %s %s from %s")
          [.str (resolveID r s).1, .str r.Method, .str r.URL.Path, .str r.RemoteAddr]⟩ := by
    simp only [root, resolveID_header]
  rw [hroot, complete_returned _ _ _ hpath hmethod] at hlm
  obtain ⟨ha, hc⟩ := serveWith_of_returned _ r s _ hopt hlm
  rw [serve_eq]
  refine ⟨ha, ?_⟩
  intro l
  rw [hc]
  show (if l = (r.URL.Path, r.Method, lit "200") then
    (resolveID r s).2.2.requestsTotal l + 1 else (resolveID r s).2.2.requestsTotal l) = _
  rw [resolveID_requestsTotal]

/-! ## The catch-all route -/

/-- C4, as stated, fails: a GET of `/foo//bar`, a path that is neither
`/healthz` nor `/metrics`, is not served by `root`; the multiplexer answers it
with a redirect to the cleaned path, status 301, and not with the echo body. -/
theorem serve_unclean_path_redirects :
    uncleanRequest.URL.Path ≠ lit "/healthz" ∧ uncleanRequest.URL.Path ≠ lit "/metrics" ∧
    (serve envUnset sampleExposition uncleanRequest world0).1.status? = some 301 ∧
    ((serve envUnset sampleExposition uncleanRequest world0).1.header?.map
      fun h => h.Get (lit "Location")) = some (lit "/foo/bar") ∧
    (serve envUnset sampleExposition uncleanRequest world0).1.body? ≠
      some (lit "Podinfo from scratch! Req ID: abc-123") := by
  decide

/-- C4, amended.  For every request whose request-URI is not `*`, whose path
begins with a slash, is neither `/healthz` nor `/metrics` and, unless the
method is CONNECT, is its own cleaned form, and whose path and method are valid
UTF-8, the multiplexer of `main` hands the request to `root`, and the server
answers with status 200 and, unless the method is HEAD (no body is sent then),
with the body `Podinfo from scratch! Req ID: ` followed by the ID the
middleware resolved. -/
theorem serve_catchAll_echo (env : GoString → Option GoString) (promhttpHandler : Handler)
    (r : Request) (s : World)
    (huri : r.RequestURI ≠ lit "*")
    (hp : r.URL.Path.head? = some 47)
    (hclean : r.Method ≠ lit "CONNECT" → cleanPath r.URL.Path = r.URL.Path)
    (h1 : r.URL.Path ≠ lit "/healthz") (h2 : r.URL.Path ≠ lit "/metrics")
    (hpath : utf8ValidString r.URL.Path = true) (hmethod : utf8ValidString r.Method = true) :
    (∀ (w : ResponseWriter) (s1 : World),
      (mainMux promhttpHandler).ServeHTTP w (resolveID r s).2.1 s1 =
        root w (resolveID r s).2.1 s1) ∧
    (serve env promhttpHandler r s).1.status? = some 200 ∧
    (serve env promhttpHandler r s).1.body? =
      some (if r.Method = lit "HEAD" then []
        else lit "Podinfo from scratch! Req ID: " ++ (resolveID r s).1) := by
  have hroute : ∀ (w : ResponseWriter) (s1 : World),
      (mainMux promhttpHandler).ServeHTTP w (resolveID r s).2.1 s1 =
        root w (resolveID r s).2.1 s1 := by
    intro w s1
    have hH := mainMux_Handler_root promhttpHandler (resolveID r s).2.1 hp hclean h1 h2
    have hu : (resolveID r s).2.1.RequestURI ≠ lit "*" := huri
    simp only [ServeMux.ServeHTTP, hu, if_false, hH]
  have hne : lit "Podinfo from scratch! Req ID: " ++ (resolveID r s).1 ≠ [] := by
    intro h
    have := congrArg List.length h
    simp [lit, utf8EncodeRune] at this
  obtain ⟨ha, _⟩ := serve_of_root env promhttpHandler r s (fun h => huri h.1) hroute hpath hmethod
  refine ⟨hroute, ?_, ?_⟩
  · rw [ha]
    simp [Answer.status?, respond, ResponseWriter.Write, ResponseWriter.WriteHeader,
      ResponseWriter.new, hne, bodyAllowedForStatus]
  · rw [ha]
    by_cases hh : r.Method = lit "HEAD" <;>
      simp [Answer.body?, respond, ResponseWriter.Write, ResponseWriter.WriteHeader,
        ResponseWriter.new, hne, bodyAllowedForStatus, hh]

/-- Witness of C4 (amended): a GET of `/foo/bar` carrying
`X-Request-ID: abc-123`. -/
theorem serve_catchAll_echo_witness :
    (sampleRequest (lit "GET") (lit "/foo/bar") headerWithID).RequestURI ≠ lit "*" ∧
    cleanPath (lit "/foo/bar") = lit "/foo/bar" ∧
    utf8ValidString (lit "/foo/bar") = true ∧ utf8ValidString (lit "GET") = true ∧
    (serve envUnset sampleExposition (sampleRequest (lit "GET") (lit "/foo/bar") headerWithID)
      world0).1.status? = some 200 ∧
    (serve envUnset sampleExposition (sampleRequest (lit "GET") (lit "/foo/bar") headerWithID)
      world0).1.body? = some (lit "Podinfo from scratch! Req ID: abc-123") :=
  have h := serve_catchAll_echo envUnset sampleExposition
    (sampleRequest (lit "GET") (lit "/foo/bar") headerWithID) world0 (by decide) (by decide)
    (fun _ => by decide) (by decide) (by decide) (by decide) (by decide)
  ⟨by decide, by decide, by decide, by decide, h.2.1, h.2.2.trans (by decide)⟩

/-- The request-URI `*` with a method other than OPTIONS is answered by the
multiplexer with 400. -/
theorem serve_star_bad_request :
    (serve envUnset sampleExposition (sampleRequest (lit "GET") (lit "*") headerWithID)
      world0).1.status? = some 400 := by
  decide

/-- The request `OPTIONS *` is answered by the server itself with status 200:
the handler of `main` is not called, nothing is logged and no counter is
changed. -/
theorem serve_options_star :
    (serve envUnset sampleExposition (sampleRequest (lit "OPTIONS") (lit "*") headerWithID)
      world0).1.status? = some 200 ∧
    (serve envUnset sampleExposition (sampleRequest (lit "OPTIONS") (lit "*") headerWithID)
      world0).2.logged = [] ∧
    (serve envUnset sampleExposition (sampleRequest (lit "OPTIONS") (lit "*") headerWithID)
      world0).2.requestsTotal (lit "*", lit "OPTIONS", lit "200") = 0 := by
  decide

/-- The status label on an error answer: `GET *` is answered with 400 and is
counted under (`*`, `GET`, `200`); lines 52 to 54 set the label whatever the
answer, which is not what the comment of line 51 (assume 200 unless error)
announces. -/
theorem serve_star_counted_as_200 :
    (serve envUnset sampleExposition (sampleRequest (lit "GET") (lit "*") headerWithID)
      world0).1.status? = some 400 ∧
    (serve envUnset sampleExposition (sampleRequest (lit "GET") (lit "*") headerWithID)
      world0).2.requestsTotal (lit "*", lit "GET", lit "200") = 1 ∧
    (serve envUnset sampleExposition (sampleRequest (lit "GET") (lit "*") headerWithID)
      world0).2.requestsTotal (lit "*", lit "GET", lit "400") = 0 := by
  decide

/-- A CONNECT request is routed on its path as sent: the empty path of a
request in authority form matches no pattern and is answered with 404. -/
theorem serve_connect_unrooted_not_found :
    (serve envUnset sampleExposition
      { sampleRequest (lit "CONNECT") [] headerWithID with RequestURI := lit "example.com:443" }
      world0).1.status? = some 404 := by
  decide

/-- A HEAD request of a path of the catch-all route is answered with status 200
and no body. -/
theorem serve_head_no_body :
    (serve envUnset sampleExposition (sampleRequest (lit "HEAD") (lit "/foo/bar") headerWithID)
      world0).1.status? = some 200 ∧
    (serve envUnset sampleExposition (sampleRequest (lit "HEAD") (lit "/foo/bar") headerWithID)
      world0).1.body? = some [] := by
  decide

/-- A GET of `/%ff` reaches `root`, then the counter call panics on the path,
which is not valid UTF-8: the exchange is aborted, no counter is changed, and
the log holds the entry line and the line of the recovered panic, no
completion line. -/
theorem serve_bad_path_aborted :
    (serve envUnset sampleExposition badPathRequest world0).1.status? = none ∧
    (serve envUnset sampleExposition badPathRequest world0).2.requestsTotal
      ([47, 255], lit "GET", lit "200") = 0 ∧
    (serve envUnset sampleExposition badPathRequest world0).2.logged.map LogEntry.format =
      [lit "[%s] %s %s from %s", lit "http: panic serving %v: %v\n%s"] := by
  decide

/-! ## The request counter across requests -/

theorem mainMux_ServeHTTP_slash (promhttpHandler : Handler) (w : ResponseWriter) (r : Request)
    (s : World) (hpath : r.URL.Path = lit "/") :
    (mainMux promhttpHandler).ServeHTTP w r s = root w r s ∨
    ∃ w1, (mainMux promhttpHandler).ServeHTTP w r s = Outcome.returned ⟨w1, r, s⟩ := by
  unfold ServeMux.ServeHTTP
  by_cases hu : r.RequestURI = lit "*"
  · right
    simp only [hu, if_true]
    exact ⟨_, rfl⟩
  · left
    have hH : (mainMux promhttpHandler).Handler r = root := by
      apply mainMux_Handler_root
      · rw [hpath]; rfl
      · intro _; rw [hpath]; decide
      · rw [hpath]; decide
      · rw [hpath]; decide
    simp only [hu, if_false, hH]

theorem serve_requestsTotal (env : GoString → Option GoString) (promhttpHandler : Handler)
    (r : Request) (s : World) (hm : r.Method = lit "GET") (hpath : r.URL.Path = lit "/")
    (l : Labels) :
    (serve env promhttpHandler r s).2.requestsTotal l =
      if l = (lit "/", lit "GET", lit "200") then s.requestsTotal l + 1
      else s.requestsTotal l := by
  have hopt : ¬ (r.RequestURI = lit "*" ∧ r.Method = lit "OPTIONS") := by
    rw [hm]; intro h; exact absurd h.2 (by decide)
  have hlm := loggingMiddleware_eq (mainMux promhttpHandler).ServeHTTP ResponseWriter.new r s
  have hm1 : (resolveID r s).2.1.Method = lit "GET" := hm
  have hp1 : (resolveID r s).2.1.URL.Path = lit "/" := hpath
  have hout : ∃ w1, (mainMux promhttpHandler).ServeHTTP ResponseWriter.new (resolveID r s).2.1
      ((resolveID r s).2.2.Printf (lit "[%s] %s %s from %s")
        [.str (resolveID r s).1, .str r.Method, .str r.URL.Path, .str r.RemoteAddr]) =
      Outcome.returned ⟨w1, (resolveID r s).2.1,
        (resolveID r s).2.2.Printf (lit "[%s] %s %s from %s")
          [.str (resolveID r s).1, .str r.Method, .str r.URL.Path, .str r.RemoteAddr]⟩ := by
    rcases mainMux_ServeHTTP_slash promhttpHandler ResponseWriter.new (resolveID r s).2.1
      ((resolveID r s).2.2.Printf (lit "[%s] %s %s from %s")
        [.str (resolveID r s).1, .str r.Method, .str r.URL.Path, .str r.RemoteAddr])
      hp1 with h | h
    · exact ⟨_, h.trans rfl⟩
    · exact h
  obtain ⟨w1, hw1⟩ := hout
  rw [hw1, complete_returned _ _ _ (by rw [hp1]; decide) (by rw [hm1]; decide)] at hlm
  obtain ⟨_, hc⟩ := serveWith_of_returned _ r s _ hopt hlm
  rw [serve_eq, hc]
  show (if l = ((resolveID r s).2.1.URL.Path, (resolveID r s).2.1.Method, lit "200") then
    (resolveID r s).2.2.requestsTotal l + 1 else (resolveID r s).2.2.requestsTotal l) = _
  rw [resolveID_requestsTotal, hm1, hp1]

/-- C5 (counting).  For every `N` and every starting state, after `N` requests
with method GET and path `/` have been served one after another by the server
of `main`, the counter labelled (`/`, `GET`, `200`) is its starting value plus
`N`, hence at least `N`, and no counter is below its starting value. -/
theorem serveAll_counts (env : GoString → Option GoString) (promhttpHandler : Handler)
    (N : Nat) (rs : List Request) (s : World) (hN : rs.length = N)
    (hget : ∀ r ∈ rs, r.Method = lit "GET" ∧ r.URL.Path = lit "/") :
    (serveAll env promhttpHandler rs s).requestsTotal (lit "/", lit "GET", lit "200") =
      s.requestsTotal (lit "/", lit "GET", lit "200") + N ∧
    N ≤ (serveAll env promhttpHandler rs s).requestsTotal (lit "/", lit "GET", lit "200") ∧
    ∀ l : Labels, s.requestsTotal l ≤ (serveAll env promhttpHandler rs s).requestsTotal l := by
  subst hN
  have key : ∀ (rs : List Request) (s : World),
      (∀ r ∈ rs, r.Method = lit "GET" ∧ r.URL.Path = lit "/") →
      ∀ l : Labels, (serveAll env promhttpHandler rs s).requestsTotal l =
        if l = (lit "/", lit "GET", lit "200") then s.requestsTotal l + rs.length
        else s.requestsTotal l := by
    intro rs
    induction rs with
    | nil => intro s _ l; simp [serveAll]
    | cons r rs ih =>
      intro s h l
      have hr := h r (List.mem_cons_self _ _)
      have hrs : ∀ r1 ∈ rs, r1.Method = lit "GET" ∧ r1.URL.Path = lit "/" :=
        fun r1 h1 => h r1 (List.mem_cons_of_mem _ h1)
      rw [serveAll, ih _ hrs l, serve_requestsTotal env promhttpHandler r s hr.1 hr.2 l]
      by_cases hl : l = (lit "/", lit "GET", lit "200")
      · simp only [hl, if_true, List.length_cons]
        omega
      · simp only [hl, if_false]
  have h0 := key rs s hget
  refine ⟨?_, ?_, ?_⟩
  · rw [h0, if_pos rfl]
  · rw [h0, if_pos rfl]
    exact Nat.le_add_left _ _
  · intro l
    rw [h0]
    split
    · exact Nat.le_add_right _ _
    · exact le_refl _

/-- Witness of C5: three GET requests of `/` from the start-up state. -/
theorem serveAll_counts_witness :
    threeGets.length = 3 ∧
    (∀ r ∈ threeGets, r.Method = lit "GET" ∧ r.URL.Path = lit "/") ∧
    (serveAll envUnset sampleExposition threeGets world0).requestsTotal
      (lit "/", lit "GET", lit "200") = 3 :=
  have hget : ∀ r ∈ threeGets, r.Method = lit "GET" ∧ r.URL.Path = lit "/" := by
    intro r hr
    simp only [threeGets, List.mem_cons, List.mem_singleton, List.not_mem_nil, or_false] at hr
    rcases hr with h | h | h <;> subst h <;> exact ⟨rfl, rfl⟩
  ⟨rfl, hget, (serveAll_counts envUnset sampleExposition 3 threeGets world0 rfl hget).1⟩

/-! ## The `/metrics` route -/

theorem mainMux_Handler_metrics (promhttpHandler : Handler) (r : Request)
    (hpath : r.URL.Path = lit "/metrics") :
    (mainMux promhttpHandler).Handler r = promhttpHandler := by
  have hsr : (mainMux promhttpHandler).shouldRedirect (lit "/metrics") = false :=
    mainMux_shouldRedirect _ _ (by decide)
  have hc : cleanPath (lit "/metrics") = lit "/metrics" := by decide
  have hh : (mainMux promhttpHandler).handler (lit "/metrics") = promhttpHandler := rfl
  unfold ServeMux.Handler
  rw [hpath]
  by_cases hm : r.Method = lit "CONNECT"
  · simp only [hm, if_true, hsr, Bool.false_eq_true, if_false, hh]
  · simp only [hm, if_false, hc, hsr, Bool.false_eq_true, ne_eq, not_true_eq_false, hh]

/-- C8 at a GET of `/metrics` carrying `X-Request-ID: abc-123`: the multiplexer
of `main` hands the request straight to `promhttp.Handler()`, on the process
state as it is; the function `metrics`, which logs `[abc-123] Metrics request`
before it delegates, is not what `main` registered.  Between the entry line and
the completion line of the middleware the server itself logs nothing. -/
theorem metrics_route_bypasses_metrics (promhttpHandler : Handler) (w : ResponseWriter)
    (s : World) :
    (mainMux promhttpHandler).ServeHTTP w metricsRequest s = promhttpHandler w metricsRequest s ∧
    metrics promhttpHandler w metricsRequest s =
      promhttpHandler w metricsRequest
        (s.Printf (lit "[%s] Metrics request") [.str (lit "abc-123")]) ∧
    (serve envUnset sampleExposition metricsRequest world0).2.logged =
      [⟨lit "[%s] %s %s from %s",
          [.str (lit "abc-123"), .str (lit "GET"), .str (lit "/metrics"),
           .str (lit "10.0.0.7:51234")]⟩,
       ⟨lit "[%s] Completed %s %s in %v",
          [.str (lit "abc-123"), .str (lit "GET"), .str (lit "/metrics"), .duration 0]⟩] := by
  refine ⟨?_, ?_, by decide⟩
  · have hu : metricsRequest.RequestURI ≠ lit "*" := by decide
    simp only [ServeMux.ServeHTTP, hu, if_false, mainMux_Handler_metrics _ metricsRequest rfl]
  · have hid : metricsRequest.Header.Get (lit "X-Request-ID") = lit "abc-123" :=
      Header.Get_Set _ _ _
    simp only [metrics, hid]

end Podinfo
